import Mathlib

/-!
Verification of the LiteX SPI SD-card / FAT16 loader
(`litex/soc/software/libbase/spi.c`).

The MISO line is modelled as an oracle `bus : Nat → Nat`: `bus i` is the
value returned by the i-th sample of the MISO register, and a cursor `pos`
counts how many samples have been consumed so far.  Bytes written on MOSI
are pure outputs (clocking always terminates), so they are only recorded
where a claim is about them (the CMD17 command frame).

At the filesystem layer a second oracle `disk : Nat → Option (Nat → Nat)`
abstracts `readSector`: `disk s = some sec` means reading sector `s`
succeeds and delivers the byte function `sec` (512 meaningful bytes),
`none` means the read fails.  Machine arithmetic: the target is a 32-bit
RISC-V, so `unsigned int`/`unsigned long` arithmetic is `% 2 ^ 32` where a
wrap is reachable (cluster-to-sector arithmetic, sector indices); the FAT
values and cluster numbers are 16-bit quantities by their C types.
Destination addresses are taken as ideal naturals (no 4 GiB wrap).

Return convention of the C code: SUCCESS = 0x01, FAILURE = 0x00.
-/

def SUCCESS : Nat := 0x01

def FAILURE : Nat := 0x00

/-- Loop body of `spi_read_rbyte` (spi.c:90-97): while the sampled byte `r`
has its high bit set and the timeout counter is positive, send a filler
byte and re-sample MISO. -/
def rbyteLoop (bus : Nat → Nat) : Nat → Nat → Nat → Nat × Nat
  | r, pos, 0 => (r, pos)
  | r, pos, Nat.succ t =>
    if r &&& 0x80 ≠ 0 then rbyteLoop bus (bus pos) (pos + 1) t else (r, pos)

/-- `spi_read_rbyte` (spi.c:83-101): sample MISO once, then retry with up
to 32 filler bytes while the high bit is set.  Returns the final sampled
byte and the cursor after the consumed samples. -/
def spi_read_rbyte (bus : Nat → Nat) (pos : Nat) : Nat × Nat :=
  rbyteLoop bus (bus pos) (pos + 1) 32

/-- `spi_read_byte` (spi.c:117-125): send one filler byte, sample MISO. -/
def spi_read_byte (bus : Nat → Nat) (pos : Nat) : Nat × Nat :=
  (bus pos, pos + 1)

/-- Do-while loop of `spi_setspimode` (spi.c:143-155), entered with the
timeout counter: each cycle deasserts CS, sends 10 fillers, asserts CS and
reads a response byte, then decrements the counter; the loop continues
while the counter is positive and the response is zero.  Returns the final
counter value (the C code fails iff it is 0) and the cursor. -/
def setspimodeAux (bus : Nat → Nat) : Nat → Nat → Nat × Nat
  | pos, 0 => (0, pos)
  | pos, Nat.succ t =>
    let rp := spi_read_rbyte bus pos
    if t = 0 then (0, rp.2)
    else if rp.1 = 0 then setspimodeAux bus rp.2 t
    else (t, rp.2)

/-- `spi_setspimode` (spi.c:136-160): run the mode-switch cycle with
timeout 32; return FAILURE iff the counter reached 0. -/
def spi_setspimode (bus : Nat → Nat) (pos : Nat) : Nat :=
  if (setspimodeAux bus pos 32).1 = 0 then FAILURE else SUCCESS

/-- Cursor position before the k-th mode-switch attempt (attempts are
numbered from 0): each attempt consumes the samples of one
`spi_read_rbyte` call. -/
def attemptState (bus : Nat → Nat) (pos : Nat) : Nat → Nat
  | 0 => pos
  | Nat.succ k => (spi_read_rbyte bus (attemptState bus pos k)).2

/-- Response byte obtained by the k-th mode-switch attempt. -/
def attemptR (bus : Nat → Nat) (pos k : Nat) : Nat :=
  (spi_read_rbyte bus (attemptState bus pos k)).1

/-- Token-wait loop of `readSector` (spi.c:269-273): while the sampled
byte is not 0xFE and the timeout counter is positive, read another byte. -/
def rsTokenLoop (bus : Nat → Nat) : Nat → Nat → Nat → Nat × Nat
  | r, pos, 0 => (r, pos)
  | r, pos, Nat.succ t =>
    if r ≠ 0xfe then rsTokenLoop bus (bus pos) (pos + 1) t else (r, pos)

/-- The 7-byte CMD17 frame sent by `readSector` (spi.c:263): filler, 0x51,
the sector number as 4 big-endian bytes, fixed check byte 0xFF. -/
def cmd17Frame (sn : Nat) : List Nat :=
  [0xff, 0x51, (sn >>> 24) &&& 0xff, (sn >>> 16) &&& 0xff,
   (sn >>> 8) &&& 0xff, sn &&& 0xff, 0xff]

/-- `readSector` (spi.c:255-285) at the protocol level: returns the
emitted command frame, `some` of the 512 stored bytes on success (`none`
on a bad R1 response or a missed block-start token), and the final
cursor (512 data bytes plus 8 discarded trailing bytes are consumed). -/
def readSector (bus : Nat → Nat) (pos sn : Nat) :
    List Nat × Option (List Nat) × Nat :=
  let frame := cmd17Frame sn
  let rp := spi_read_rbyte bus pos
  if rp.1 ≠ 0 then (frame, none, rp.2)
  else
    let t := rsTokenLoop bus (bus rp.2) (rp.2 + 1) 16384
    if t.1 ≠ 0xfe then (frame, none, t.2)
    else (frame, some ((List.range 512).map fun n => bus (t.2 + n)), t.2 + 512 + 8)

/-- Offset of the first 0xFE among the next `n` samples, if any. -/
def firstToken (bus : Nat → Nat) : Nat → Nat → Option Nat
  | _, 0 => none
  | pos, Nat.succ n =>
    if bus pos = 0xfe then some 0 else (firstToken bus (pos + 1) n).map (· + 1)

/-- Specification-side description of `readSector` (for claim C8, amended
bound): fail unless the R1 response is 0x00; look for the 0xFE token among
the next 16385 samples (one initial read plus up to 16384 polls); on
finding it at offset j, the stored block is the following 512 samples and
8 further samples are discarded. -/
def readSectorSpec (bus : Nat → Nat) (pos sn : Nat) :
    List Nat × Option (List Nat) × Nat :=
  let frame := cmd17Frame sn
  let rp := spi_read_rbyte bus pos
  if rp.1 ≠ 0 then (frame, none, rp.2)
  else
    match firstToken bus rp.2 16385 with
    | none => (frame, none, rp.2 + 16385)
    | some j =>
      (frame, some ((List.range 512).map fun n => bus (rp.2 + j + 1 + n)),
       rp.2 + j + 1 + 512 + 8)

/-- Bus used by witnesses of the response-byte reader claims. -/
def busW : Nat → Nat := fun i => if i < 2 then 0x80 else 0x05

/-- Bus refuting claim C10 as stated: the first nonzero response arrives
only on the 32nd attempt. -/
def busC10 : Nat → Nat := fun i => if i < 31 then 0 else 1

/-- Bus refuting claim C8 as stated: the first 0xFE is the 16385th sample
taken while waiting for the block-start token. -/
def busC8 : Nat → Nat := fun i => if i = 16385 then 0xfe else 0

/-- Bus used by the witness of claim C8. -/
def busC8w : Nat → Nat := fun i => if i = 1 then 0xfe else i % 256

-- FAT16 layer --------------------------------------------------------------

/-- Little-endian 16-bit field at byte offset `o` of a sector. -/
def le16 (sec : Nat → Nat) (o : Nat) : Nat := sec o + 256 * sec (o + 1)

/-- Little-endian 32-bit field at byte offset `o` of a sector. -/
def le32 (sec : Nat → Nat) (o : Nat) : Nat :=
  sec o + 256 * sec (o + 1) + 65536 * sec (o + 2) + 16777216 * sec (o + 3)

/-- Partition-table entry (spi.c:292-299), as copied from offset 0x1BE of
sector 0; the CHS geometry bytes are not used by the logic and omitted. -/
structure PartitionTable where
  first_byte : Nat
  partition_type : Nat
  start_sector : Nat
  length_sectors : Nat
deriving DecidableEq, Repr

/-- Parse the packed partition entry at offset 0x1BE (struct layout:
byte 0 status, bytes 1-3 CHS, byte 4 type, bytes 5-7 CHS, bytes 8-11
start sector, bytes 12-15 length). -/
def parsePartitionTable (sec : Nat → Nat) : PartitionTable :=
  { first_byte := sec 0x1be
    partition_type := sec (0x1be + 4)
    start_sector := le32 sec (0x1be + 8)
    length_sectors := le32 sec (0x1be + 12) }

/-- FAT16 boot-sector fields used by the logic (spi.c:304-328); the
packed struct places them at the offsets used below.  Print-only fields
are omitted. -/
structure Fat16BootSector where
  sector_size : Nat
  sectors_per_cluster : Nat
  reserved_sectors : Nat
  number_of_fats : Nat
  root_dir_entries : Nat
  total_sectors_short : Nat
  media_descriptor : Nat
  fat_size_sectors : Nat
  total_sectors_long : Nat
deriving DecidableEq, Repr

/-- Parse the boot sector: jmp 0-2, oem 3-10, then the geometry fields. -/
def parseBootSector (sec : Nat → Nat) : Fat16BootSector :=
  { sector_size := le16 sec 11
    sectors_per_cluster := sec 13
    reserved_sectors := le16 sec 14
    number_of_fats := sec 16
    root_dir_entries := le16 sec 17
    total_sectors_short := le16 sec 19
    media_descriptor := sec 21
    fat_size_sectors := le16 sec 22
    total_sectors_long := le32 sec 32 }

/-- Read `count` consecutive sectors starting at `start` into an advancing
destination (`dest`, stepping by `dss` bytes per sector, mirroring
spi.c:452-457 and 466-471).  Sector indices pass through `readSector`'s
`unsigned int` parameter, hence the `% 2 ^ 32`.  Returns the list of
attempted `(sector, destination)` reads and whether all succeeded (the C
code stops at the first failing sector). -/
def readSeq (disk : Nat → Option (Nat → Nat)) : Nat → Nat → Nat → Nat →
    List (Nat × Nat) × Bool
  | _, _, _, 0 => ([], true)
  | start, dest, dss, Nat.succ k =>
    let s := start % 2 ^ 32
    match disk s with
    | none => ([(s, dest)], false)
    | some _ =>
      let r := readSeq disk (start + 1) (dest + dss) dss k
      ((s, dest) :: r.1, r.2)

/-- Geometry and buffer layout produced by a successful
`spi_sdcard_readMBR` (the globals it assigns). -/
structure MBRGeom where
  part : PartitionTable
  boot : Fat16BootSector
  fatSectorStart : Nat
  rootDirSectorStart : Nat
  fatAddr : Nat
  dirAddr : Nat
  dirSectors : Nat
deriving DecidableEq, Repr

/-- `spi_sdcard_readMBR` (spi.c:366-499).  `ramTop` stands for
`MAIN_RAM_BASE + MAIN_RAM_SIZE` and `scratch` for the address of the
global `sdCardSector` buffer.  Returns the list of attempted
`(sector, destination)` reads in order and `some` of the resulting
geometry on success, `none` on any failure (bad status byte, non-FAT16
type code, zero total sectors, or a failed sector read). -/
def spi_sdcard_readMBR (disk : Nat → Option (Nat → Nat)) (ramTop scratch : Nat) :
    List (Nat × Nat) × Option MBRGeom :=
  match disk 0 with
  | none => ([(0, scratch)], none)
  | some sec0 =>
    let p := parsePartitionTable sec0
    if p.first_byte ≠ 0x80 ∧ p.first_byte ≠ 0x00 then ([(0, scratch)], none)
    else if ¬(p.partition_type = 4 ∨ p.partition_type = 6 ∨ p.partition_type = 14) then
      ([(0, scratch)], none)
    else
      let bs := p.start_sector % 2 ^ 32
      match disk bs with
      | none => ([(0, scratch), (bs, scratch)], none)
      | some secB =>
        let b := parseBootSector secB
        if b.total_sectors_long = 0 then ([(0, scratch), (bs, scratch)], none)
        else
          let fatAddr := ramTop - b.sector_size * b.fat_size_sectors
          let fatStart := (p.start_sector + b.reserved_sectors) % 2 ^ 32
          let fr := readSeq disk fatStart fatAddr b.sector_size b.fat_size_sectors
          if fr.2 = false then ((0, scratch) :: (bs, scratch) :: fr.1, none)
          else
            let dirAddr := ramTop - b.sector_size * b.fat_size_sectors
              - b.root_dir_entries * 32
            let rootStart := (p.start_sector + b.reserved_sectors
              + b.number_of_fats * b.fat_size_sectors) % 2 ^ 32
            let dirSectors := b.root_dir_entries * 32 / b.sector_size
            let dr := readSeq disk rootStart dirAddr b.sector_size dirSectors
            ((0, scratch) :: (bs, scratch) :: fr.1 ++ dr.1,
             if dr.2 = false then none
             else some { part := p, boot := b, fatSectorStart := fatStart,
                         rootDirSectorStart := rootStart, fatAddr := fatAddr,
                         dirAddr := dirAddr, dirSectors := dirSectors })

/-- Root-directory entry fields used by `spi_sdcard_readFile`
(spi.c:334-343): 8 name bytes, 3 extension bytes, starting cluster
(16-bit field) and file size (32-bit field). -/
structure Fat16Entry where
  filename : List Nat
  ext : List Nat
  starting_cluster : Nat
  file_size : Nat
deriving DecidableEq, Repr

/-- Out-of-range default for directory indexing (never reached while the
index stays below the entry count, as the scan loop guards). -/
def emptyEntry : Fat16Entry :=
  { filename := [], ext := [], starting_cluster := 0, file_size := 0 }

/-- Name match of spi.c:521-528: an entry with a nonzero first name byte
matches iff every position `i < strlen(filename)` of the entry's name and
every position `i < strlen(ext)` of its extension agree with the caller's
strings (the C loop sets a flag and clears it on any mismatch, which is
this conjunction).  Faithful to the C for caller strings of length at
most 8 and 3 (longer ones would read past the fixed-size fields). -/
def entryMatch (e : Fat16Entry) (fn ex : List Nat) : Bool :=
  if e.filename.getD 0 0 ≠ 0 then
    ((List.range fn.length).all fun i => e.filename.getD i 0 == fn.getD i 0) &&
    ((List.range ex.length).all fun i => e.ext.getD i 0 == ex.getD i 0)
  else false

/-- Directory-scan loop of spi.c:519-536, with explicit fuel: while no
file has been found and the index is below the entry count, test entry
`n`; on a match take its starting cluster (a match whose cluster is 0
leaves the found-flag clear and does not advance `n`, so the C loop spins
forever: modelled by consuming fuel at the same index), otherwise advance.
`none` means the fuel ran out (the C loop has not terminated);
`some none` is the file-not-found exit; `some (some e)` the found exit. -/
def scanAux (dir : List Fat16Entry) (fn ex : List Nat) :
    Nat → Nat → Option (Option Fat16Entry)
  | _, 0 => none
  | n, Nat.succ fuel =>
    if n < dir.length then
      if entryMatch (dir.getD n emptyEntry) fn ex then
        if (dir.getD n emptyEntry).starting_cluster = 0 then scanAux dir fn ex n fuel
        else some (some (dir.getD n emptyEntry))
      else scanAux dir fn ex (n + 1) fuel
    else some none

/-- The filesystem geometry `spi_sdcard_readFile` reads from the globals
set by `spi_sdcard_readMBR`. -/
structure FatGeom where
  sectors_per_cluster : Nat
  sector_size : Nat
  rootDirSectorStart : Nat
deriving DecidableEq, Repr

/-- First sector of a cluster (spi.c:557):
`rootDirSectorStart + (cluster - 1) * sectors_per_cluster` computed in C
`int`/`unsigned` arithmetic, which wraps modulo 2^32 (for `c = 0` the
`int` value `c - 1 = -1` converts to `2^32 - 1`); `(c + 2^32 - 1)` is
that same value for every cluster number `c < 2^32`. -/
def clusterSectorStartC (g : FatGeom) (c : Nat) : Nat :=
  (g.rootDirSectorStart + (c + 2 ^ 32 - 1) * g.sectors_per_cluster) % 2 ^ 32

/-- The `count` bytes a block transfer stores from byte function `sec`
starting at destination address `addr`, as `(address, byte)` pairs. -/
def sectorWrites (sec : Nat → Nat) (addr count : Nat) : List (Nat × Nat) :=
  (List.range count).map fun j => (addr + j, sec j)

/-- Result of the per-cluster sector loop: sectors read, destination
writes, and `some (address, bytesRemaining)` on success. -/
structure SectorLoopOut where
  sectors : List Nat
  writes : List (Nat × Nat)
  st : Option (Nat × Nat)
deriving DecidableEq, Repr

/-- Inner sector loop of `spi_sdcard_readFile` (spi.c:558-577): for each
of the cluster's sectors, if more than one sector's worth of bytes
remains, `readSector` stores its full 512-byte block at the destination
address, which then advances by `sector_size`; otherwise the block goes
to the scratch buffer and `memcpy` moves exactly `bytesRemaining` bytes
(possibly 0) to the destination, which does not advance.  `writes`
records only stores to the destination region, not to the scratch
buffer.  (When the declared sector size exceeds 512 the C `memcpy` would
read past the 512-byte scratch buffer; the model idealises those bytes
as coming from `sec`.  The claim theorems only use the 512-byte case.) -/
def sectorLoop (disk : Nat → Option (Nat → Nat)) (ss cs : Nat) :
    Nat → Nat → Nat → Nat → SectorLoopOut
  | _, 0, addr, bytes => { sectors := [], writes := [], st := some (addr, bytes) }
  | sector, Nat.succ f, addr, bytes =>
    let s := (cs + sector) % 2 ^ 32
    match disk s with
    | none => { sectors := [s], writes := [], st := none }
    | some sec =>
      if bytes > ss then
        let r := sectorLoop disk ss cs (sector + 1) f (addr + ss) (bytes - ss)
        { sectors := s :: r.sectors
          writes := sectorWrites sec addr 512 ++ r.writes
          st := r.st }
      else
        let r := sectorLoop disk ss cs (sector + 1) f addr 0
        { sectors := s :: r.sectors
          writes := sectorWrites sec addr bytes ++ r.writes
          st := r.st }

/-- Cluster number after following the allocation table `k` times from
`c0` (spi.c:580: `fileClusterStart = sdCardFatTable[fileClusterStart]`,
applied unconditionally, with no end-of-chain check). -/
def chainCluster (fat : Nat → Nat) (c0 : Nat) : Nat → Nat
  | 0 => c0
  | Nat.succ k => fat (chainCluster fat c0 k)

/-- Result of the cluster loop: the `(cluster, clusterSectorStart)` pairs
visited, sectors read, destination writes, and overall success. -/
structure ClusterLoopOut where
  clusters : List (Nat × Nat)
  sectors : List Nat
  writes : List (Nat × Nat)
  ok : Bool
deriving DecidableEq, Repr

/-- Outer cluster loop of `spi_sdcard_readFile` (spi.c:553-581): for each
of the precomputed number of clusters, run the sector loop on the
cluster's sectors, then advance to the allocation-table entry of the
current cluster.  A failed sector read aborts immediately. -/
def clusterLoop (disk : Nat → Option (Nat → Nat)) (g : FatGeom) (fat : Nat → Nat) :
    Nat → Nat → Nat → Nat → ClusterLoopOut
  | 0, _, _, _ => { clusters := [], sectors := [], writes := [], ok := true }
  | Nat.succ i, c, addr, bytes =>
    let cs := clusterSectorStartC g c
    let r := sectorLoop disk g.sector_size cs 0 g.sectors_per_cluster addr bytes
    match r.st with
    | none => { clusters := [(c, cs)], sectors := r.sectors, writes := r.writes,
                ok := false }
    | some ab =>
      let rest := clusterLoop disk g fat i (fat c) ab.1 ab.2
      { clusters := (c, cs) :: rest.clusters
        sectors := r.sectors ++ rest.sectors
        writes := r.writes ++ rest.writes
        ok := rest.ok }

/-- Observable outcome of `spi_sdcard_readFile`: the returned status, the
clusters visited, the sectors read and the destination writes. -/
structure ReadFileOut where
  ok : Bool
  clusters : List (Nat × Nat)
  sectors : List Nat
  writes : List (Nat × Nat)
deriving DecidableEq, Repr

/-- `spi_sdcard_readFile` (spi.c:509-584): scan the root directory for
the name (the scan may diverge, hence the fuel and the outer `Option`);
if no entry is found return FAILURE; a zero-length file returns SUCCESS
immediately; otherwise visit `1 + fileLength / sectors_per_cluster /
sector_size` clusters (the C expression, both divisions truncating). -/
def spi_sdcard_readFile (disk : Nat → Option (Nat → Nat)) (g : FatGeom)
    (fat : Nat → Nat) (dir : List Fat16Entry) (fn ex : List Nat)
    (addr fuel : Nat) : Option ReadFileOut :=
  match scanAux dir fn ex 0 fuel with
  | none => none
  | some none => some { ok := false, clusters := [], sectors := [], writes := [] }
  | some (some e) =>
    if e.file_size = 0 then
      some { ok := true, clusters := [], sectors := [], writes := [] }
    else
      let r := clusterLoop disk g fat
        (1 + e.file_size / g.sectors_per_cluster / g.sector_size)
        e.starting_cluster addr e.file_size
      some { ok := r.ok, clusters := r.clusters, sectors := r.sectors,
             writes := r.writes }

/-- Byte `o` of the file content laid out along the cluster chain: the
cluster holding offset `o`, the sector within it, and the byte within
that sector, read from the same sector the code reads. -/
def fileByte (disk : Nat → Option (Nat → Nat)) (g : FatGeom) (fat : Nat → Nat)
    (c0 o : Nat) : Nat :=
  let cb := g.sector_size * g.sectors_per_cluster
  let c := chainCluster fat c0 (o / cb)
  match disk ((clusterSectorStartC g c + (o % cb) / g.sector_size) % 2 ^ 32) with
  | none => 0
  | some sec => sec ((o % cb) % g.sector_size)

/-- The byte stream a sector loop starting at sector `cs + s0` stores:
byte `o` comes from sector `cs + s0 + o / 512`, offset `o % 512` (valid
for the 512-byte declared sector size). -/
def sectorStream (disk : Nat → Option (Nat → Nat)) (cs s0 o : Nat) : Nat :=
  match disk ((cs + (s0 + o / 512)) % 2 ^ 32) with
  | none => 0
  | some sec => sec (o % 512)

-- Concrete fixtures used by witnesses and counterexamples ------------------

/-- Sector 0 whose partition entry has status 0x00, type 6, start sector 0
(used by the C6 witness). -/
def sec6 : Nat → Nat := fun i => if i = 0x1be + 4 then 6 else 0

/-- One-sector disk for the C6 witness. -/
def disk6 : Nat → Option (Nat → Nat) := fun s => if s = 0 then some sec6 else none

/-- Sector 0 for the C7 fixture: status 0x00, type 6, start sector 1. -/
def sec0C7 : Nat → Nat :=
  fun i => if i = 0x1be + 4 then 6 else if i = 0x1be + 8 then 1 else 0

/-- Boot sector for the C7 fixture: 512-byte sectors, 1 sector per
cluster, 1 reserved sector, 1 allocation table of 1 sector, 8 root
directory entries, 100 total sectors. -/
def secBC7 : Nat → Nat := fun i =>
  if i = 12 then 2 else if i = 13 then 1 else if i = 14 then 1
  else if i = 16 then 1 else if i = 17 then 8 else if i = 22 then 1
  else if i = 32 then 100 else 0

/-- Disk for the C7 fixture: MBR, boot sector and one zeroed table
sector. -/
def diskC7 : Nat → Option (Nat → Nat) := fun s =>
  if s = 0 then some sec0C7 else if s = 1 then some secBC7
  else if s = 2 then some (fun _ => 0) else none

/-- Geometry `spi_sdcard_readMBR` produces on the C7 fixture with the
memory top at 2^26. -/
def gC7w : MBRGeom :=
  { part := { first_byte := 0, partition_type := 6, start_sector := 1,
              length_sectors := 0 }
    boot := { sector_size := 512, sectors_per_cluster := 1, reserved_sectors := 1,
              number_of_fats := 1, root_dir_entries := 8, total_sectors_short := 0,
              media_descriptor := 0, fat_size_sectors := 1, total_sectors_long := 100 }
    fatSectorStart := 2, rootDirSectorStart := 3,
    fatAddr := 2 ^ 26 - 512, dirAddr := 2 ^ 26 - 512 - 256, dirSectors := 0 }

/-- Directory entry of the read-file witness fixture: name `H`, space
padded, extension spaces, cluster 2, 40 bytes. -/
def eW : Fat16Entry :=
  { filename := [72, 32, 32, 32, 32, 32, 32, 32], ext := [32, 32, 32],
    starting_cluster := 2, file_size := 40 }

/-- Root directory of the read-file witness fixture. -/
def dirW : List Fat16Entry := [eW]

/-- Geometry of the read-file witness fixture: 1 sector per cluster,
512-byte sectors, root directory starting at sector 5. -/
def gW : FatGeom :=
  { sectors_per_cluster := 1, sector_size := 512, rootDirSectorStart := 5 }

/-- Sector content of the read-file witness disk. -/
def dsecW : Nat → Nat := fun j => (3 * j) % 256

/-- Disk of the read-file witness fixture: every sector reads the same
content. -/
def diskW : Nat → Option (Nat → Nat) := fun _ => some dsecW

/-- Allocation table of the read-file witness fixture. -/
def fatW : Nat → Nat := fun c => c + 1

/-- Outcome of `spi_sdcard_readFile` on the witness fixture: one cluster
(cluster 2, first sector 6), one sector read, the 40 file bytes written
at destination offsets 0..39. -/
def outW : ReadFileOut :=
  { ok := true, clusters := [(2, 6)], sectors := [6],
    writes := (List.range 40).map fun o => (0 + o, (3 * o) % 256) }

/-- Zero-length directory entry for the C4 witness (cluster 5, size 0). -/
def e4 : Fat16Entry :=
  { filename := [66, 32, 32, 32, 32, 32, 32, 32], ext := [32, 32, 32],
    starting_cluster := 5, file_size := 0 }

/-- Root directory of the C4 witness. -/
def dir4 : List Fat16Entry := [e4]

/-- Geometry of the C1 counterexample: the boot sector declares 256-byte
sectors (the device still transfers 512-byte blocks). -/
def gC1 : FatGeom :=
  { sectors_per_cluster := 1, sector_size := 256, rootDirSectorStart := 0 }

/-- Directory entry of the C1 counterexample: cluster 2, 300 bytes. -/
def entC1 : Fat16Entry :=
  { filename := [72, 32, 32, 32, 32, 32, 32, 32], ext := [32, 32, 32],
    starting_cluster := 2, file_size := 300 }

/-- Root directory of the C1 counterexample. -/
def dirC1 : List Fat16Entry := [entC1]

/-- Disk of the C1 counterexample: every sector byte reads 7. -/
def diskC1 : Nat → Option (Nat → Nat) := fun _ => some fun _ => 7

/-- Allocation table of the C1 counterexample. -/
def fatC1 : Nat → Nat := fun _ => 3

-- Lemmas ------------------------------------------------------------------

/-- Characterisation of the response-byte retry loop: starting from the
sample at `pos` with `t` retries available, if the first `j` samples all
have the high bit set and either `j = t` or sample `j` has it clear, the
loop returns sample `j` having consumed `j + 1` samples. -/
theorem rbyteLoop_spec (bus : Nat → Nat) :
    ∀ t pos j, j ≤ t →
      (∀ i, i < j → bus (pos + i) &&& 0x80 ≠ 0) →
      (j < t → bus (pos + j) &&& 0x80 = 0) →
      rbyteLoop bus (bus pos) (pos + 1) t = (bus (pos + j), pos + j + 1) := by
  intro t
  induction t with
  | zero =>
    intro pos j hj _ _
    have hj0 : j = 0 := by omega
    subst hj0
    simp [rbyteLoop]
  | succ t ih =>
    intro pos j hj hset hclear
    match j with
    | 0 =>
      have hc : bus pos &&& 0x80 = 0 := by simpa using hclear (Nat.succ_pos t)
      simp [rbyteLoop, hc]
    | Nat.succ j' =>
      have hs : bus pos &&& 0x80 ≠ 0 := by simpa using hset 0 (Nat.succ_pos j')
      have step : rbyteLoop bus (bus pos) (pos + 1) (t + 1)
          = rbyteLoop bus (bus (pos + 1)) (pos + 1 + 1) t := by
        simp [rbyteLoop, hs]
      rw [step]
      have := ih (pos + 1) j' (Nat.succ_le_succ_iff.mp hj)
        (fun i hi => by
          have := hset (i + 1) (Nat.succ_lt_succ hi)
          simpa [Nat.add_assoc, Nat.add_comm 1 i] using this)
        (fun hlt => by
          have := hclear (Nat.succ_lt_succ hlt)
          simpa [Nat.add_assoc, Nat.add_comm 1 j'] using this)
      have h1 : pos + 1 + j' = pos + Nat.succ j' := by omega
      rw [h1] at this
      exact this

/-- Claim C9: `spi_read_rbyte` samples one byte and, while the sampled
byte's high bit is set, sends up to 32 filler bytes, re-sampling after
each; it returns the first sampled byte whose high bit is clear (sample
`j`, after `j` filler bytes), or, when all 32 retries are exhausted
(`j = 32`), the last sampled byte whatever its value — so exhaustion is
indistinguishable from a valid response of the same value. -/
theorem c9_read_rbyte (bus : Nat → Nat) (pos j : Nat) (hj : j ≤ 32)
    (hset : ∀ i, i < j → bus (pos + i) &&& 0x80 ≠ 0)
    (hclear : j < 32 → bus (pos + j) &&& 0x80 = 0) :
    spi_read_rbyte bus pos = (bus (pos + j), pos + j + 1) :=
  rbyteLoop_spec bus 32 pos j hj hset hclear

/-- Witness for claim C9 at a concrete bus: the first two samples have
the high bit set, the third is 0x05 and is returned. -/
theorem c9_read_rbyte_w :
    (2 ≤ 32 ∧ (∀ i, i < 2 → busW (0 + i) &&& 0x80 ≠ 0) ∧
      (2 < 32 → busW (0 + 2) &&& 0x80 = 0)) ∧
    spi_read_rbyte busW 0 = (busW (0 + 2), 0 + 2 + 1) :=
  ⟨⟨by decide, by decide, by decide⟩,
   c9_read_rbyte busW 0 2 (by decide) (by decide) (by decide)⟩

/-- Shifting the attempt index by one is running the attempts from the
cursor left by the first attempt. -/
theorem attemptState_shift (bus : Nat → Nat) (pos : Nat) :
    ∀ k, attemptState bus (spi_read_rbyte bus pos).2 k
      = attemptState bus pos (k + 1) := by
  intro k
  induction k with
  | zero => rfl
  | succ k ih => simp [attemptState, ih]

/-- The mode-switch loop ends with a nonzero counter (the C success
condition) iff one of the first `t` attempts reads a nonzero response
byte, when entered with counter `t + 1`. -/
theorem setspimodeAux_spec (bus : Nat → Nat) :
    ∀ t pos, (setspimodeAux bus pos (t + 1)).1 ≠ 0
      ↔ ∃ i, i < t ∧ attemptR bus pos i ≠ 0 := by
  intro t
  induction t with
  | zero =>
    intro pos
    simp [setspimodeAux]
  | succ t ih =>
    intro pos
    show (if t + 1 = 0 then ((0 : Nat), (spi_read_rbyte bus pos).2)
      else if (spi_read_rbyte bus pos).1 = 0 then
        setspimodeAux bus (spi_read_rbyte bus pos).2 (t + 1)
      else (t + 1, (spi_read_rbyte bus pos).2)).1 ≠ 0 ↔ _
    rw [if_neg (Nat.succ_ne_zero t)]
    by_cases h0 : (spi_read_rbyte bus pos).1 = 0
    · rw [if_pos h0, ih]
      constructor
      · rintro ⟨i, hi, hr⟩
        refine ⟨i + 1, Nat.succ_lt_succ hi, ?_⟩
        rwa [attemptR, attemptState_shift] at hr
      · rintro ⟨i, hi, hr⟩
        match i with
        | 0 => exact absurd h0 hr
        | Nat.succ i' =>
          refine ⟨i', Nat.lt_of_succ_lt_succ hi, ?_⟩
          rwa [attemptR, attemptState_shift]
    · rw [if_neg h0]
      simp only [ne_eq, Nat.succ_ne_zero, not_false_eq_true, true_iff]
      exact ⟨0, Nat.succ_pos t, h0⟩

/-- Claim C10 (amended): `spi_setspimode` runs the mode-switch cycle at
most 32 times and returns SUCCESS iff a nonzero response is obtained
within the first 31 attempts; when every attempt reads zero, and also
when the first nonzero response arrives only on the 32nd attempt, the
timeout counter has reached zero and the call returns FAILURE. -/
theorem c10_setspimode_amended (bus : Nat → Nat) (pos : Nat) :
    spi_setspimode bus pos = SUCCESS ↔ ∃ i, i < 31 ∧ attemptR bus pos i ≠ 0 := by
  rw [← setspimodeAux_spec bus 31 pos]
  unfold spi_setspimode
  by_cases h : (setspimodeAux bus pos 32).1 = 0 <;> simp [h, SUCCESS, FAILURE]

set_option maxRecDepth 40000 in
/-- Counterexample to claim C10 as stated ("returns success whenever a
response is obtained within the 32 attempts"): on `busC10` the 32nd
attempt (index 31) obtains the nonzero response 1, yet the call returns
FAILURE because the timeout counter is exhausted. -/
theorem c10_cex :
    spi_setspimode busC10 0 = FAILURE ∧ attemptR busC10 0 31 ≠ 0 := by decide

/-- The token-wait loop, entered with the sample at `pos` and `t` retries,
is the search for the first 0xFE among the next `t + 1` samples: found at
offset `j`, it stops with 0xFE having consumed `j + 1` samples; not
found, it stops with the last sample. -/
theorem rsTokenLoop_firstToken (bus : Nat → Nat) :
    ∀ t pos, rsTokenLoop bus (bus pos) (pos + 1) t =
      match firstToken bus pos (t + 1) with
      | some j => (0xfe, pos + j + 1)
      | none => (bus (pos + t), pos + t + 1) := by
  intro t
  induction t with
  | zero =>
    intro pos
    by_cases h : bus pos = 0xfe
    · simp [rsTokenLoop, firstToken, h]
    · simp [rsTokenLoop, firstToken, h]
  | succ t ih =>
    intro pos
    by_cases h : bus pos = 0xfe
    · simp [rsTokenLoop, firstToken, h]
    · have step : rsTokenLoop bus (bus pos) (pos + 1) (t + 1)
          = rsTokenLoop bus (bus (pos + 1)) (pos + 1 + 1) t := by
        simp [rsTokenLoop, h]
      rw [step, ih (pos + 1)]
      show (match firstToken bus (pos + 1) (t + 1) with
        | some j => ((0xfe : Nat), pos + 1 + j + 1)
        | none => (bus (pos + 1 + t), pos + 1 + t + 1)) = _
      have hft : firstToken bus pos (t + 1 + 1)
          = (firstToken bus (pos + 1) (t + 1)).map (· + 1) := by
        simp [firstToken, h]
      rw [hft]
      cases firstToken bus (pos + 1) (t + 1) with
      | none =>
        simp only [Option.map_none']
        have e : pos + 1 + t = pos + (t + 1) := by omega
        rw [e]
      | some j =>
        simp only [Option.map_some']
        have e : pos + 1 + j = pos + (j + 1) := by omega
        rw [e]

/-- `firstToken` returns `none` exactly when no sample in the window is
the block-start token. -/
theorem firstToken_none_iff (bus : Nat → Nat) :
    ∀ n pos, firstToken bus pos n = none ↔ ∀ i, i < n → bus (pos + i) ≠ 0xfe := by
  intro n
  induction n with
  | zero => intro pos; simp [firstToken]
  | succ n ih =>
    intro pos
    by_cases h : bus pos = 0xfe
    · constructor
      · intro hc
        simp [firstToken, h] at hc
      · intro hall
        exact absurd h (by simpa using hall 0 (Nat.succ_pos n))
    · simp only [firstToken, if_neg h, Option.map_eq_none', ih (pos + 1)]
      constructor
      · intro hall i hi
        match i with
        | 0 => simpa using h
        | Nat.succ i' =>
          have hthis := hall i' (Nat.lt_of_succ_lt_succ hi)
          have e : pos + 1 + i' = pos + (i' + 1) := by omega
          rw [e] at hthis
          exact hthis
      · intro hall i hi
        have hthis := hall (i + 1) (Nat.succ_lt_succ hi)
        have e : pos + (i + 1) = pos + 1 + i := by omega
        rw [e] at hthis
        exact hthis

/-- `firstToken` finds the least offset carrying the token. -/
theorem firstToken_eq_some (bus : Nat → Nat) :
    ∀ k n pos, k < n → bus (pos + k) = 0xfe →
      (∀ i, i < k → bus (pos + i) ≠ 0xfe) →
      firstToken bus pos n = some k := by
  intro k
  induction k with
  | zero =>
    intro n pos hn hk _
    match n with
    | Nat.succ n' => simp [firstToken, (by simpa using hk : bus pos = 0xfe)]
  | succ k ih =>
    intro n pos hn hk hmiss
    match n with
    | Nat.succ n' =>
      have h0 : bus pos ≠ 0xfe := by simpa using hmiss 0 (Nat.succ_pos k)
      have hrec : firstToken bus (pos + 1) n' = some k := by
        refine ih n' (pos + 1) (Nat.lt_of_succ_lt_succ hn) ?_ ?_
        · have e : pos + (k + 1) = pos + 1 + k := by omega
          rw [e] at hk
          exact hk
        · intro i hi
          have hthis := hmiss (i + 1) (Nat.succ_lt_succ hi)
          have e : pos + (i + 1) = pos + 1 + i := by omega
          rw [e] at hthis
          exact hthis
      simp [firstToken, h0, hrec]

/-- Claim C8 (amended): `readSector` emits the CMD17 frame with the
sector index as 4 big-endian bytes, fails unless the R1 response byte is
0x00, then takes up to 16385 single-byte samples looking for the 0xFE
block-start token (one initial read plus up to 16384 polls), failing if
it is never seen; on seeing it, exactly the next 512 bytes are stored in
order and exactly 8 trailing bytes are read and discarded. -/
theorem c8_readSector_amended (bus : Nat → Nat) (pos sn : Nat)
    (hsn : sn < 2 ^ 32) :
    readSector bus pos sn = readSectorSpec bus pos sn ∧
    cmd17Frame sn = [0xff, 0x51, sn / 2 ^ 24, sn / 2 ^ 16 % 2 ^ 8,
      sn / 2 ^ 8 % 2 ^ 8, sn % 2 ^ 8, 0xff] := by
  constructor
  · unfold readSector readSectorSpec
    by_cases hr : (spi_read_rbyte bus pos).1 ≠ 0
    · simp only [if_pos hr]
    · simp only [if_neg hr]
      rw [rsTokenLoop_firstToken bus 16384 (spi_read_rbyte bus pos).2]
      cases hft : firstToken bus (spi_read_rbyte bus pos).2 (16384 + 1) with
      | none =>
        have hlast : bus ((spi_read_rbyte bus pos).2 + 16384) ≠ 0xfe :=
          (firstToken_none_iff bus (16384 + 1) _).mp hft 16384 (by omega)
        simp only [hft, if_pos hlast]
      | some j =>
        simp only [hft]
        rw [if_neg (by simp)]
  · have hmod : ∀ x : Nat, x &&& 0xff = x % 2 ^ 8 := fun x => by
      have := Nat.and_pow_two_sub_one_eq_mod x 8
      norm_num at this ⊢
      exact this
    have h24 : sn >>> 24 &&& 0xff = sn / 2 ^ 24 := by
      rw [Nat.shiftRight_eq_div_pow, hmod]
      have hlt : sn / 2 ^ 24 < 2 ^ 8 :=
        Nat.div_lt_of_lt_mul (by norm_num at hsn ⊢; omega)
      exact Nat.mod_eq_of_lt hlt
    have h16 : sn >>> 16 &&& 0xff = sn / 2 ^ 16 % 2 ^ 8 := by
      rw [Nat.shiftRight_eq_div_pow, hmod]
    have h8 : sn >>> 8 &&& 0xff = sn / 2 ^ 8 % 2 ^ 8 := by
      rw [Nat.shiftRight_eq_div_pow, hmod]
    have h0 : sn &&& 0xff = sn % 2 ^ 8 := hmod sn
    simp [cmd17Frame, h24, h16, h8, h0]

/-- Witness for claim C8 at a concrete bus and sector number. -/
theorem c8_readSector_amended_w :
    (0xA0B0C0D : Nat) < 2 ^ 32 ∧
    (readSector busC8w 0 0xA0B0C0D = readSectorSpec busC8w 0 0xA0B0C0D ∧
     cmd17Frame 0xA0B0C0D = [0xff, 0x51, 0xA0B0C0D / 2 ^ 24,
       0xA0B0C0D / 2 ^ 16 % 2 ^ 8, 0xA0B0C0D / 2 ^ 8 % 2 ^ 8,
       0xA0B0C0D % 2 ^ 8, 0xff]) :=
  ⟨by norm_num, c8_readSector_amended busC8w 0 0xA0B0C0D (by norm_num)⟩

set_option maxRecDepth 100000 in
/-- Counterexample to claim C8 as stated ("polls up to 16384 times for
the block-start token, returning failure if the token is never seen
within that bound"): on `busC8` none of the 16384 polls after the R1
response sees 0xFE, yet `readSector` succeeds, because the code takes one
initial sample before the 16384-iteration poll loop (16385 token reads in
total). -/
theorem c8_cex :
    (readSector busC8 0 0).2.1.isSome = true ∧ firstToken busC8 1 16384 = none := by
  have h1 : spi_read_rbyte busC8 0 = (0, 1) := by decide
  have hmiss : ∀ i, i < 16384 → busC8 (1 + i) ≠ 0xfe := by
    intro i hi
    show (if 1 + i = 16385 then (0xfe : Nat) else 0) ≠ 0xfe
    rw [if_neg (by omega)]
    decide
  constructor
  · have hhit : busC8 (1 + 16384) = 0xfe := by decide
    have hft : firstToken busC8 1 (16384 + 1) = some 16384 :=
      firstToken_eq_some busC8 16384 (16384 + 1) 1 (by omega) hhit hmiss
    have hloop := rsTokenLoop_firstToken busC8 16384 1
    rw [hft] at hloop
    have hloop2 : rsTokenLoop busC8 (busC8 1) 2 16384 = (0xfe, 16386) := hloop
    unfold readSector
    rw [h1]
    simp only [hloop2]
    simp
  · exact (firstToken_none_iff busC8 16384 1).mpr hmiss

/-- Claim C6: after successfully reading sector 0, `spi_sdcard_readMBR`
proceeds past partition validation (attempts the boot-sector read, so the
read log continues past sector 0) iff the partition status byte is 0x00
or 0x80 and the type code is 4, 6 or 14; any other value makes the call
return failure with sector 0 as the only read. -/
theorem c6_readMBR_validation (disk : Nat → Option (Nat → Nat))
    (ramTop scratch : Nat) (sec0 : Nat → Nat) (p : PartitionTable)
    (h0 : disk 0 = some sec0) (hp : p = parsePartitionTable sec0) :
    (((p.first_byte = 0x00 ∨ p.first_byte = 0x80) ∧
      (p.partition_type = 4 ∨ p.partition_type = 6 ∨ p.partition_type = 14)) ↔
      ∃ rest, (spi_sdcard_readMBR disk ramTop scratch).1 =
        (0, scratch) :: (p.start_sector % 2 ^ 32, scratch) :: rest) ∧
    (¬((p.first_byte = 0x00 ∨ p.first_byte = 0x80) ∧
       (p.partition_type = 4 ∨ p.partition_type = 6 ∨ p.partition_type = 14)) →
      spi_sdcard_readMBR disk ramTop scratch = ([(0, scratch)], none)) := by
  subst hp
  unfold spi_sdcard_readMBR
  rw [h0]
  by_cases hv : ((parsePartitionTable sec0).first_byte = 0x00 ∨
      (parsePartitionTable sec0).first_byte = 0x80) ∧
      ((parsePartitionTable sec0).partition_type = 4 ∨
       (parsePartitionTable sec0).partition_type = 6 ∨
       (parsePartitionTable sec0).partition_type = 14)
  · have h1 : ¬((parsePartitionTable sec0).first_byte ≠ 0x80 ∧
        (parsePartitionTable sec0).first_byte ≠ 0x00) := by
      rcases hv.1 with h | h <;> simp [h]
    have h2 : ¬¬((parsePartitionTable sec0).partition_type = 4 ∨
        (parsePartitionTable sec0).partition_type = 6 ∨
        (parsePartitionTable sec0).partition_type = 14) := not_not_intro hv.2
    simp only [if_neg h1, if_neg h2]
    refine ⟨⟨fun _ => ?_, fun _ => hv⟩, fun hc => absurd hv hc⟩
    cases hd : disk ((parsePartitionTable sec0).start_sector % 2 ^ 32) with
    | none => exact ⟨[], rfl⟩
    | some secB =>
      by_cases hts : (parseBootSector secB).total_sectors_long = 0
      · simp only [if_pos hts]
        exact ⟨[], rfl⟩
      · simp only [if_neg hts]
        by_cases hfr : (readSeq disk
            (((parsePartitionTable sec0).start_sector
              + (parseBootSector secB).reserved_sectors) % 2 ^ 32)
            (ramTop - (parseBootSector secB).sector_size
              * (parseBootSector secB).fat_size_sectors)
            (parseBootSector secB).sector_size
            (parseBootSector secB).fat_size_sectors).2 = false
        · simp only [if_pos hfr]
          exact ⟨_, rfl⟩
        · simp only [if_neg hfr]
          exact ⟨_, rfl⟩
  · constructor
    · refine ⟨fun hvv => absurd hvv hv, fun hrest => absurd hrest ?_⟩
      rcases not_and_or.mp hv with h | h
      · have h1 : (parsePartitionTable sec0).first_byte ≠ 0x80 ∧
            (parsePartitionTable sec0).first_byte ≠ 0x00 := by
          constructor <;> (intro he; exact h (by simp [he]))
        simp only [if_pos h1]
        rintro ⟨rest, hr⟩
        simp at hr
      · by_cases h1 : (parsePartitionTable sec0).first_byte ≠ 0x80 ∧
            (parsePartitionTable sec0).first_byte ≠ 0x00
        · simp only [if_pos h1]
          rintro ⟨rest, hr⟩
          simp at hr
        · simp only [if_neg h1, if_pos h]
          rintro ⟨rest, hr⟩
          simp at hr
    · intro _
      rcases not_and_or.mp hv with h | h
      · have h1 : (parsePartitionTable sec0).first_byte ≠ 0x80 ∧
            (parsePartitionTable sec0).first_byte ≠ 0x00 := by
          constructor <;> (intro he; exact h (by simp [he]))
        simp only [if_pos h1]
      · by_cases h1 : (parsePartitionTable sec0).first_byte ≠ 0x80 ∧
            (parsePartitionTable sec0).first_byte ≠ 0x00
        · simp only [if_pos h1]
        · simp only [if_neg h1, if_pos h]

/-- Witness for claim C6 on a concrete one-sector disk with a valid
partition entry (status 0x00, type 6). -/
theorem c6_readMBR_validation_w :
    disk6 0 = some sec6 ∧
    (((((parsePartitionTable sec6).first_byte = 0x00 ∨
        (parsePartitionTable sec6).first_byte = 0x80) ∧
       ((parsePartitionTable sec6).partition_type = 4 ∨
        (parsePartitionTable sec6).partition_type = 6 ∨
        (parsePartitionTable sec6).partition_type = 14)) ↔
       ∃ rest, (spi_sdcard_readMBR disk6 (2 ^ 26) 77).1 =
         (0, 77) :: ((parsePartitionTable sec6).start_sector % 2 ^ 32, 77) :: rest) ∧
     (¬(((parsePartitionTable sec6).first_byte = 0x00 ∨
         (parsePartitionTable sec6).first_byte = 0x80) ∧
        ((parsePartitionTable sec6).partition_type = 4 ∨
         (parsePartitionTable sec6).partition_type = 6 ∨
         (parsePartitionTable sec6).partition_type = 14)) →
       spi_sdcard_readMBR disk6 (2 ^ 26) 77 = ([(0, 77)], none))) :=
  ⟨rfl, c6_readMBR_validation disk6 (2 ^ 26) 77 sec6 (parsePartitionTable sec6) rfl rfl⟩

/-- On success, the sequential sector loader attempts exactly the
consecutive sectors `start .. start + count - 1` (each taken modulo 2^32)
with destinations advancing by `dss` bytes per sector. -/
theorem readSeq_log (disk : Nat → Option (Nat → Nat)) :
    ∀ k start dest dss, (readSeq disk start dest dss k).2 = true →
      (readSeq disk start dest dss k).1 =
        (List.range k).map fun n => ((start + n) % 2 ^ 32, dest + dss * n) := by
  intro k
  induction k with
  | zero => intro start dest dss _; rfl
  | succ k ih =>
    intro start dest dss h
    cases hd : disk (start % 2 ^ 32) with
    | none =>
      norm_num at hd
      simp [readSeq, hd] at h
    | some sec =>
      norm_num at hd
      have h2 : (readSeq disk (start + 1) (dest + dss) dss k).2 = true := by
        simpa [readSeq, hd] using h
      have hrec := ih (start + 1) (dest + dss) dss h2
      have hgoal : (readSeq disk start dest dss (k + 1)).1
          = (start % 2 ^ 32, dest) :: (readSeq disk (start + 1) (dest + dss) dss k).1 := by
        simp [readSeq, hd]
      rw [hgoal, hrec, List.range_succ_eq_map, List.map_cons, List.map_map]
      simp only [Nat.add_zero, Nat.mul_zero]
      refine congrArg₂ _ rfl ?_
      refine List.map_congr_left fun n _ => ?_
      simp only [Function.comp_apply]
      have e1 : start + 1 + n = start + (n + 1) := by omega
      have e2 : dest + dss + dss * n = dest + dss * (n + 1) := by ring
      rw [e1, e2]

/-- Claim C7 (amended): on success `spi_sdcard_readMBR` computes the root
directory start as partition start + reserved sectors + number of table
copies x table size (no 32-bit wrap assumed), reads exactly
`rootEntryCount * 32 / sectorSize` consecutive sectors (the C expression,
a floor division, not a ceiling) into the directory buffer placed
immediately below the allocation-table buffer, advancing the destination
by one sector size per sector. -/
theorem c7_readMBR_rootdir_amended (disk : Nat → Option (Nat → Nat))
    (ramTop scratch : Nat) (g : MBRGeom)
    (hg : (spi_sdcard_readMBR disk ramTop scratch).2 = some g)
    (hov : g.part.start_sector + g.boot.reserved_sectors
      + g.boot.number_of_fats * g.boot.fat_size_sectors + g.dirSectors < 2 ^ 32) :
    g.rootDirSectorStart = g.part.start_sector + g.boot.reserved_sectors
      + g.boot.number_of_fats * g.boot.fat_size_sectors ∧
    g.dirSectors = g.boot.root_dir_entries * 32 / g.boot.sector_size ∧
    g.fatAddr = ramTop - g.boot.sector_size * g.boot.fat_size_sectors ∧
    g.dirAddr = g.fatAddr - g.boot.root_dir_entries * 32 ∧
    ∃ front, (spi_sdcard_readMBR disk ramTop scratch).1 =
      front ++ (List.range g.dirSectors).map
        fun n => (g.rootDirSectorStart + n, g.dirAddr + g.boot.sector_size * n) := by
  unfold spi_sdcard_readMBR at hg ⊢
  split at hg
  next => simp at hg
  next sec0 h0 =>
    try dsimp only at hg
    split at hg
    next => simp at hg
    next hb1 =>
      split at hg
      next => simp at hg
      next hb2 =>
        split at hg
        next => simp at hg
        next secB hbs =>
          try dsimp only at hg
          split at hg
          next => simp at hg
          next hts =>
            split at hg
            next => simp at hg
            next hfr =>
              split at hg
              next => simp at hg
              next hdr =>
                simp only [Option.some.injEq] at hg
                subst hg
                dsimp only at hov ⊢
                have htrue : (readSeq disk
                    (((parsePartitionTable sec0).start_sector
                      + (parseBootSector secB).reserved_sectors
                      + (parseBootSector secB).number_of_fats
                        * (parseBootSector secB).fat_size_sectors) % 2 ^ 32)
                    (ramTop - (parseBootSector secB).sector_size
                        * (parseBootSector secB).fat_size_sectors
                      - (parseBootSector secB).root_dir_entries * 32)
                    (parseBootSector secB).sector_size
                    ((parseBootSector secB).root_dir_entries * 32
                      / (parseBootSector secB).sector_size)).2 = true := by
                  revert hdr
                  cases (readSeq disk
                    (((parsePartitionTable sec0).start_sector
                      + (parseBootSector secB).reserved_sectors
                      + (parseBootSector secB).number_of_fats
                        * (parseBootSector secB).fat_size_sectors) % 2 ^ 32)
                    (ramTop - (parseBootSector secB).sector_size
                        * (parseBootSector secB).fat_size_sectors
                      - (parseBootSector secB).root_dir_entries * 32)
                    (parseBootSector secB).sector_size
                    ((parseBootSector secB).root_dir_entries * 32
                      / (parseBootSector secB).sector_size)).2 <;> simp
                have hovS := lt_of_le_of_lt (Nat.le_add_right _ _) hov
                have hmodS : ((parsePartitionTable sec0).start_sector
                    + (parseBootSector secB).reserved_sectors
                    + (parseBootSector secB).number_of_fats
                      * (parseBootSector secB).fat_size_sectors) % 2 ^ 32
                    = (parsePartitionTable sec0).start_sector
                    + (parseBootSector secB).reserved_sectors
                    + (parseBootSector secB).number_of_fats
                      * (parseBootSector secB).fat_size_sectors :=
                  Nat.mod_eq_of_lt hovS
                refine ⟨hmodS, rfl, rfl, rfl, ?_⟩
                refine ⟨(0, scratch)
                  :: ((parsePartitionTable sec0).start_sector % 2 ^ 32, scratch)
                  :: (readSeq disk
                      (((parsePartitionTable sec0).start_sector
                        + (parseBootSector secB).reserved_sectors) % 2 ^ 32)
                      (ramTop - (parseBootSector secB).sector_size
                        * (parseBootSector secB).fat_size_sectors)
                      (parseBootSector secB).sector_size
                      (parseBootSector secB).fat_size_sectors).1, ?_⟩
                rw [if_neg hb1, if_neg hb2, hbs]
                dsimp only
                rw [if_neg hts, if_neg hfr]
                simp only [List.cons_append, List.cons.injEq, true_and]
                rw [readSeq_log disk _ _ _ _ htrue]
                refine congrArg₂ _ rfl ?_
                refine List.map_congr_left fun n hn => ?_
                rw [List.mem_range] at hn
                rw [hmodS]
                refine congrArg₂ _ ?_ rfl
                exact Nat.mod_eq_of_lt (by omega)

/-- Witness for claim C7 on the concrete C7 fixture disk. -/
theorem c7_readMBR_rootdir_amended_w :
    ((spi_sdcard_readMBR diskC7 (2 ^ 26) 0).2 = some gC7w ∧
     gC7w.part.start_sector + gC7w.boot.reserved_sectors
       + gC7w.boot.number_of_fats * gC7w.boot.fat_size_sectors
       + gC7w.dirSectors < 2 ^ 32) ∧
    (gC7w.rootDirSectorStart = gC7w.part.start_sector + gC7w.boot.reserved_sectors
       + gC7w.boot.number_of_fats * gC7w.boot.fat_size_sectors ∧
     gC7w.dirSectors = gC7w.boot.root_dir_entries * 32 / gC7w.boot.sector_size ∧
     gC7w.fatAddr = 2 ^ 26 - gC7w.boot.sector_size * gC7w.boot.fat_size_sectors ∧
     gC7w.dirAddr = gC7w.fatAddr - gC7w.boot.root_dir_entries * 32 ∧
     ∃ front, (spi_sdcard_readMBR diskC7 (2 ^ 26) 0).1 =
       front ++ (List.range gC7w.dirSectors).map
         fun n => (gC7w.rootDirSectorStart + n, gC7w.dirAddr + gC7w.boot.sector_size * n)) :=
  ⟨⟨by decide, by decide⟩,
   c7_readMBR_rootdir_amended diskC7 (2 ^ 26) 0 gC7w (by decide) (by decide)⟩

/-- Counterexample to claim C7 as stated ("reads exactly
ceil(rootEntryCount x entrySize / sectorSize) sectors"): on the C7
fixture (8 root entries, 512-byte sectors) the code computes
8 * 32 / 512 = 0 directory sectors and its read log stops after the MBR,
the boot sector and the one table sector, while the ceiling of
8 * 32 / 512 is 1. -/
theorem c7_cex :
    (spi_sdcard_readMBR diskC7 (2 ^ 26) 0).2.map (fun g => g.dirSectors) = some 0 ∧
    (spi_sdcard_readMBR diskC7 (2 ^ 26) 0).1 = [(0, 0), (1, 0), (2, 2 ^ 26 - 512)] ∧
    ((8 * 32 : Nat) + 512 - 1) / 512 = 1 := by decide

/-- A found exit of the directory scan returns the first matching entry:
entered at index `n` with no match before `n`, if the scan returns a
found entry then that entry sits at the least matching index. -/
theorem scanAux_first_match (dir : List Fat16Entry) (fn ex : List Nat) :
    ∀ fuel n e', (∀ k, k < n → entryMatch (dir.getD k emptyEntry) fn ex = false) →
      scanAux dir fn ex n fuel = some (some e') →
      ∃ m, n ≤ m ∧ m < dir.length ∧ dir.getD m emptyEntry = e' ∧
        entryMatch (dir.getD m emptyEntry) fn ex = true ∧
        ∀ k, k < m → entryMatch (dir.getD k emptyEntry) fn ex = false := by
  intro fuel
  induction fuel with
  | zero => intro n e' _ h; simp [scanAux] at h
  | succ fuel ih =>
    intro n e' hprev h
    simp only [scanAux] at h
    by_cases hn : n < dir.length
    · rw [if_pos hn] at h
      by_cases hm : entryMatch (dir.getD n emptyEntry) fn ex = true
      · rw [if_pos hm] at h
        by_cases hc : (dir.getD n emptyEntry).starting_cluster = 0
        · rw [if_pos hc] at h
          exact ih n e' hprev h
        · rw [if_neg hc] at h
          obtain rfl : dir.getD n emptyEntry = e' := by simpa using h
          exact ⟨n, le_refl n, hn, rfl, hm, hprev⟩
      · rw [if_neg hm] at h
        have hm' : entryMatch (dir.getD n emptyEntry) fn ex = false := by
          simpa using hm
        have hprev' : ∀ k, k < n + 1 →
            entryMatch (dir.getD k emptyEntry) fn ex = false := by
          intro k hk
          by_cases hkn : k = n
          · subst hkn; exact hm'
          · exact hprev k (by omega)
        obtain ⟨m, hnm, hml, heq, hma, hfi⟩ := ih (n + 1) e' hprev' h
        exact ⟨m, by omega, hml, heq, hma, hfi⟩
    · rw [if_neg hn] at h
      simp at h

/-- When no entry at or past index `n` matches, the scan reaches the
entry count and exits with file-not-found, given enough fuel. -/
theorem scanAux_no_match (dir : List Fat16Entry) (fn ex : List Nat) :
    ∀ fuel n, dir.length - n < fuel →
      (∀ k, n ≤ k → k < dir.length → entryMatch (dir.getD k emptyEntry) fn ex = false) →
      (scanAux dir fn ex n fuel).isSome = true := by
  intro fuel
  induction fuel with
  | zero => intro n h _; omega
  | succ fuel ih =>
    intro n hlt hall
    simp only [scanAux]
    by_cases hn : n < dir.length
    · rw [if_pos hn]
      have hm : entryMatch (dir.getD n emptyEntry) fn ex = false :=
        hall n (le_refl n) hn
      rw [if_neg (by rw [hm]; simp)]
      exact ih (n + 1) (by omega) (fun k hk hkl => hall k (by omega) hkl)
    · rw [if_neg hn]
      rfl

/-- When the first matching entry (index `m`) has a nonzero starting
cluster, the scan returns it, given enough fuel. -/
theorem scanAux_found (dir : List Fat16Entry) (fn ex : List Nat) (m : Nat)
    (hm : m < dir.length)
    (hmatch : entryMatch (dir.getD m emptyEntry) fn ex = true)
    (hc : (dir.getD m emptyEntry).starting_cluster ≠ 0) :
    ∀ fuel n, n ≤ m → m - n < fuel →
      (∀ k, n ≤ k → k < m → entryMatch (dir.getD k emptyEntry) fn ex = false) →
      scanAux dir fn ex n fuel = some (some (dir.getD m emptyEntry)) := by
  intro fuel
  induction fuel with
  | zero => intro n _ h _; omega
  | succ fuel ih =>
    intro n hnm hlt hall
    simp only [scanAux]
    rw [if_pos (by omega : n < dir.length)]
    by_cases he : n = m
    · subst he
      rw [if_pos hmatch, if_neg hc]
    · have hne : entryMatch (dir.getD n emptyEntry) fn ex = false :=
        hall n (le_refl n) (by omega)
      rw [if_neg (by rw [hne]; simp)]
      exact ih (n + 1) (by omega) (by omega) (fun k hk hkm => hall k (by omega) hkm)

/-- When the first matching entry (index `m`) has starting cluster 0, the
scan never terminates: entered at any index at most `m`, it consumes all
its fuel without producing a result (the C loop neither advances `n` nor
sets the found flag on that entry, so it spins forever). -/
theorem scanAux_stuck (dir : List Fat16Entry) (fn ex : List Nat) (m : Nat)
    (hm : m < dir.length)
    (hmatch : entryMatch (dir.getD m emptyEntry) fn ex = true)
    (hc : (dir.getD m emptyEntry).starting_cluster = 0)
    (hfirst : ∀ k, k < m → entryMatch (dir.getD k emptyEntry) fn ex = false) :
    ∀ fuel n, n ≤ m → scanAux dir fn ex n fuel = none := by
  intro fuel
  induction fuel with
  | zero => intro n _; rfl
  | succ fuel ih =>
    intro n hn
    simp only [scanAux]
    rw [if_pos (by omega : n < dir.length)]
    by_cases he : n = m
    · subst he
      rw [if_pos hmatch, if_pos hc]
      exact ih n hn
    · have hne : entryMatch (dir.getD n emptyEntry) fn ex = false :=
        hfirst n (by omega)
      rw [if_neg (by rw [hne]; simp)]
      exact ih (n + 1) (by omega)

/-- Claim C5: the directory scan of `spi_sdcard_readFile` terminates
(with some fuel, returning the first match or file-not-found) iff no
entry matches or the first matching entry in directory order has a
nonzero starting cluster; when the first matching entry records starting
cluster 0 the loop never advances past it and runs forever (no fuel
suffices). -/
theorem c5_scan_termination (dir : List Fat16Entry) (fn ex : List Nat) :
    (∃ fuel, (scanAux dir fn ex 0 fuel).isSome = true) ↔
    ((∀ k, k < dir.length → entryMatch (dir.getD k emptyEntry) fn ex = false) ∨
     (∃ m, m < dir.length ∧ entryMatch (dir.getD m emptyEntry) fn ex = true ∧
        (∀ k, k < m → entryMatch (dir.getD k emptyEntry) fn ex = false) ∧
        (dir.getD m emptyEntry).starting_cluster ≠ 0)) := by
  constructor
  · rintro ⟨fuel, hf⟩
    by_contra hq
    rcases not_or.mp hq with ⟨hA, hB⟩
    have hex : ∃ k, k < dir.length ∧ entryMatch (dir.getD k emptyEntry) fn ex = true := by
      push_neg at hA
      obtain ⟨k, hk, hkm⟩ := hA
      exact ⟨k, hk, by simpa using hkm⟩
    have hP : ∃ k, k < dir.length ∧ entryMatch (dir.getD k emptyEntry) fn ex = true := hex
    classical
    let m := Nat.find hP
    have hPm := Nat.find_spec hP
    have hfirst : ∀ k, k < m → entryMatch (dir.getD k emptyEntry) fn ex = false := by
      intro k hk
      have := Nat.find_min hP hk
      by_cases hkl : k < dir.length
      · rcases Bool.eq_false_or_eq_true (entryMatch (dir.getD k emptyEntry) fn ex) with
          h | h
        · exact absurd ⟨hkl, h⟩ this
        · exact h
      · exact absurd (lt_trans hk hPm.1) hkl
    by_cases hc : (dir.getD m emptyEntry).starting_cluster = 0
    · have := scanAux_stuck dir fn ex m hPm.1 hPm.2 hc hfirst fuel 0 (Nat.zero_le m)
      rw [this] at hf
      simp at hf
    · exact hB ⟨m, hPm.1, hPm.2, hfirst, hc⟩
  · intro h
    rcases h with hA | ⟨m, hm, hmatch, hfirst, hc⟩
    · exact ⟨dir.length + 1,
        scanAux_no_match dir fn ex (dir.length + 1) 0 (by omega)
          (fun k _ hk => hA k hk)⟩
    · refine ⟨m + 1, ?_⟩
      rw [scanAux_found dir fn ex m hm hmatch hc (m + 1) 0 (by omega) (by omega)
        (fun k _ hk => hfirst k hk)]
      rfl

/-- Claim C3: in the directory scan, an entry whose first name byte is
nonzero matches iff it agrees with the caller's name string on every
position below `strlen(filename)` and with the caller's extension string
on every position below `strlen(ext)` (shorter caller strings compare
only a prefix); and whenever the scan returns a found entry, it is the
first matching entry in directory order.  The length bounds keep the
model inside the fixed 8- and 3-byte fields the C code would index. -/
theorem c3_name_matching (e : Fat16Entry) (fn ex : List Nat)
    (_h8 : fn.length ≤ 8) (_h3 : ex.length ≤ 3)
    (hnz : e.filename.getD 0 0 ≠ 0) :
    (entryMatch e fn ex = true ↔
      ((∀ i, i < fn.length → e.filename.getD i 0 = fn.getD i 0) ∧
       (∀ j, j < ex.length → e.ext.getD j 0 = ex.getD j 0))) ∧
    ∀ dir fuel e', scanAux dir fn ex 0 fuel = some (some e') →
      ∃ m, m < dir.length ∧ dir.getD m emptyEntry = e' ∧
        entryMatch (dir.getD m emptyEntry) fn ex = true ∧
        ∀ k, k < m → entryMatch (dir.getD k emptyEntry) fn ex = false := by
  constructor
  · rw [entryMatch, if_pos hnz]
    simp only [Bool.and_eq_true, List.all_eq_true, List.mem_range, beq_iff_eq]
  · intro dir fuel e' h
    obtain ⟨m, _, hml, heq, hma, hfi⟩ :=
      scanAux_first_match dir fn ex fuel 0 e'
        (fun k hk => absurd hk (Nat.not_lt_zero k)) h
    exact ⟨m, hml, heq, hma, hfi⟩

/-- Witness for claim C3: entry `H` (space padded), caller name `H`
(length 1), empty caller extension. -/
theorem c3_name_matching_w :
    (([72] : List Nat).length ≤ 8 ∧ ([] : List Nat).length ≤ 3 ∧
      eW.filename.getD 0 0 ≠ 0) ∧
    ((entryMatch eW [72] [] = true ↔
      ((∀ i, i < ([72] : List Nat).length →
          eW.filename.getD i 0 = ([72] : List Nat).getD i 0) ∧
       (∀ j, j < ([] : List Nat).length →
          eW.ext.getD j 0 = ([] : List Nat).getD j 0))) ∧
     ∀ dir fuel e', scanAux dir [72] [] 0 fuel = some (some e') →
       ∃ m, m < dir.length ∧ dir.getD m emptyEntry = e' ∧
         entryMatch (dir.getD m emptyEntry) [72] [] = true ∧
         ∀ k, k < m → entryMatch (dir.getD k emptyEntry) [72] [] = false) :=
  ⟨⟨by decide, by decide, by decide⟩,
   c3_name_matching eW [72] [] (by decide) (by decide) (by decide)⟩

/-- Claim C4: a matched directory entry whose recorded file size is zero
makes `spi_sdcard_readFile` return success with no sector reads (and no
clusters visited, no bytes written) after the directory scan. -/
theorem c4_zero_length (disk : Nat → Option (Nat → Nat)) (g : FatGeom)
    (fat : Nat → Nat) (dir : List Fat16Entry) (fn ex : List Nat)
    (addr fuel : Nat) (e : Fat16Entry)
    (hscan : scanAux dir fn ex 0 fuel = some (some e))
    (hz : e.file_size = 0) :
    spi_sdcard_readFile disk g fat dir fn ex addr fuel
      = some { ok := true, clusters := [], sectors := [], writes := [] } := by
  simp [spi_sdcard_readFile, hscan, hz]

/-- Witness for claim C4: a zero-length entry found at scan index 0. -/
theorem c4_zero_length_w :
    (scanAux dir4 [66] [] 0 1 = some (some e4) ∧ e4.file_size = 0) ∧
    spi_sdcard_readFile diskW gW fatW dir4 [66] [] 0 1
      = some { ok := true, clusters := [], sectors := [], writes := [] } :=
  ⟨⟨by decide, by decide⟩,
   c4_zero_length diskW gW fatW dir4 [66] [] 0 1 e4 (by decide) (by decide)⟩

/-- Following the chain one step then `k` more is following it `k + 1`
steps. -/
theorem chainCluster_shift (fat : Nat → Nat) (c : Nat) :
    ∀ k, chainCluster fat (fat c) k = chainCluster fat c (k + 1) := by
  intro k
  induction k with
  | zero => rfl
  | succ k ih => show fat _ = fat _; rw [ih]

/-- Shifting the stream by one 512-byte sector. -/
theorem sectorStream_shift (disk : Nat → Option (Nat → Nat)) (cs s0 o : Nat) :
    sectorStream disk cs s0 (512 + o) = sectorStream disk cs (s0 + 1) o := by
  unfold sectorStream
  have h1 : (512 + o) / 512 = 1 + o / 512 := by omega
  have h2 : (512 + o) % 512 = o % 512 := by omega
  rw [h1, h2]
  have h3 : s0 + (1 + o / 512) = s0 + 1 + o / 512 := by omega
  rw [h3]

/-- Characterisation of the per-cluster sector loop at the 512-byte
declared sector size: on success it writes exactly the first
`min bytes (512 * f)` bytes of the sector stream at consecutive
addresses, leaves `bytes - 512 * f` bytes remaining, and (when bytes
remain) has advanced the address past every stored block. -/
theorem sectorLoop_spec (disk : Nat → Option (Nat → Nat)) (cs : Nat) :
    ∀ f s0 addr bytes ab,
      (sectorLoop disk 512 cs s0 f addr bytes).st = some ab →
      (sectorLoop disk 512 cs s0 f addr bytes).writes =
        (List.range (min bytes (512 * f))).map
          (fun o => (addr + o, sectorStream disk cs s0 o)) ∧
      ab.2 = bytes - 512 * f ∧
      (512 * f < bytes → ab.1 = addr + 512 * f) := by
  intro f
  induction f with
  | zero =>
    intro s0 addr bytes ab hst
    simp only [sectorLoop, Option.some.injEq] at hst
    subst hst
    refine ⟨by simp [sectorLoop], by simp [sectorLoop], fun _ => by simp [sectorLoop]⟩
  | succ f ih =>
    intro s0 addr bytes ab hst
    simp only [sectorLoop] at hst ⊢
    cases hd : disk ((cs + s0) % 2 ^ 32) with
    | none =>
      have hd2 := hd
      norm_num at hd2
      simp [hd, hd2] at hst
    | some sec =>
      have hd2 := hd
      norm_num at hd2
      simp only [hd, hd2] at hst
      try dsimp only
      by_cases hb : bytes > 512
      · rw [if_pos hb] at hst ⊢
        try dsimp only at hst ⊢
        obtain ⟨hw, hb2, ha1⟩ := ih (s0 + 1) (addr + 512) (bytes - 512) ab hst
        have hmin : min bytes (512 * (f + 1)) = 512 + min (bytes - 512) (512 * f) := by
          omega
        refine ⟨?_, by omega, fun hlt => ?_⟩
        · rw [hw, hmin, List.range_add, List.map_append, List.map_map]
          refine congrArg₂ _ ?_ ?_
          · unfold sectorWrites
            refine List.map_congr_left fun o ho => ?_
            rw [List.mem_range] at ho
            refine congrArg₂ _ rfl ?_
            unfold sectorStream
            rw [Nat.div_eq_of_lt ho, Nat.add_zero, hd, Nat.mod_eq_of_lt ho]
          · refine List.map_congr_left fun o ho => ?_
            simp only [Function.comp_apply]
            rw [sectorStream_shift]
            refine congrArg₂ _ ?_ rfl
            omega
        · rw [ha1 (by omega)]
          omega
      · rw [if_neg hb] at hst ⊢
        try dsimp only at hst ⊢
        obtain ⟨hw, hb2, _⟩ := ih (s0 + 1) addr 0 ab hst
        have hmin : min bytes (512 * (f + 1)) = bytes := by omega
        refine ⟨?_, by omega, fun hlt => absurd hlt (by omega)⟩
        rw [hw, hmin]
        simp only [Nat.zero_min, List.range_zero, List.map_nil, List.append_nil]
        unfold sectorWrites
        refine List.map_congr_left fun o ho => ?_
        rw [List.mem_range] at ho
        refine congrArg₂ _ rfl ?_
        unfold sectorStream
        rw [Nat.div_eq_of_lt (by omega : o < 512), Nat.add_zero, hd,
          Nat.mod_eq_of_lt (by omega : o < 512)]

/-- Within the first cluster, the file byte at offset `o` is the sector
stream of that cluster (512-byte declared sector size). -/
theorem fileByte_head (disk : Nat → Option (Nat → Nat)) (g : FatGeom)
    (fat : Nat → Nat) (hss : g.sector_size = 512) (c o : Nat)
    (ho : o < 512 * g.sectors_per_cluster) :
    fileByte disk g fat c o = sectorStream disk (clusterSectorStartC g c) 0 o := by
  unfold fileByte sectorStream
  rw [hss, Nat.zero_add]
  show (match disk ((clusterSectorStartC g
        (chainCluster fat c (o / (512 * g.sectors_per_cluster)))
      + (o % (512 * g.sectors_per_cluster)) / 512) % 2 ^ 32) with
    | none => 0
    | some sec => sec ((o % (512 * g.sectors_per_cluster)) % 512))
    = (match disk ((clusterSectorStartC g c + o / 512) % 2 ^ 32) with
    | none => 0
    | some sec => sec (o % 512))
  rw [Nat.div_eq_of_lt ho, Nat.mod_eq_of_lt ho]
  rfl

/-- Skipping one whole cluster of the byte stream follows the allocation
table once (512-byte declared sector size). -/
theorem fileByte_shift (disk : Nat → Option (Nat → Nat)) (g : FatGeom)
    (fat : Nat → Nat) (hss : g.sector_size = 512)
    (hspc : 1 ≤ g.sectors_per_cluster) (c o : Nat) :
    fileByte disk g fat c (512 * g.sectors_per_cluster + o)
      = fileByte disk g fat (fat c) o := by
  unfold fileByte
  rw [hss]
  have hpos : 0 < 512 * g.sectors_per_cluster := by positivity
  have h1 : (512 * g.sectors_per_cluster + o) / (512 * g.sectors_per_cluster)
      = o / (512 * g.sectors_per_cluster) + 1 := by
    rw [Nat.add_comm, Nat.add_div_right _ hpos]
  have h2 : (512 * g.sectors_per_cluster + o) % (512 * g.sectors_per_cluster)
      = o % (512 * g.sectors_per_cluster) := by
    rw [Nat.add_comm, Nat.add_mod_right]
  show (match disk ((clusterSectorStartC g (chainCluster fat c
        ((512 * g.sectors_per_cluster + o) / (512 * g.sectors_per_cluster)))
      + ((512 * g.sectors_per_cluster + o) % (512 * g.sectors_per_cluster)) / 512)
        % 2 ^ 32) with
    | none => 0
    | some sec =>
      sec (((512 * g.sectors_per_cluster + o) % (512 * g.sectors_per_cluster)) % 512))
    = (match disk ((clusterSectorStartC g (chainCluster fat (fat c)
        (o / (512 * g.sectors_per_cluster)))
      + (o % (512 * g.sectors_per_cluster)) / 512) % 2 ^ 32) with
    | none => 0
    | some sec => sec ((o % (512 * g.sectors_per_cluster)) % 512))
  rw [h1, h2, ← chainCluster_shift]

/-- The visited-clusters log of the cluster loop on success: exactly `i`
clusters, following the allocation table from the start cluster, each
with its computed first sector. -/
theorem clusterLoop_clusters (disk : Nat → Option (Nat → Nat)) (g : FatGeom)
    (fat : Nat → Nat) :
    ∀ i c addr bytes, (clusterLoop disk g fat i c addr bytes).ok = true →
      (clusterLoop disk g fat i c addr bytes).clusters =
        (List.range i).map fun k =>
          (chainCluster fat c k, clusterSectorStartC g (chainCluster fat c k)) := by
  intro i
  induction i with
  | zero => intro c addr bytes _; rfl
  | succ i ih =>
    intro c addr bytes hok
    simp only [clusterLoop] at hok ⊢
    cases hst : (sectorLoop disk g.sector_size (clusterSectorStartC g c) 0
        g.sectors_per_cluster addr bytes).st with
    | none =>
      simp only [hst] at hok
      simp at hok
    | some ab =>
      simp only [hst] at hok ⊢
      rw [ih (fat c) ab.1 ab.2 hok, List.range_succ_eq_map, List.map_cons,
        List.map_map]
      refine congrArg₂ _ rfl ?_
      refine List.map_congr_left fun k _ => ?_
      simp only [Function.comp_apply]
      rw [chainCluster_shift]

/-- Destination writes of the cluster loop on success (512-byte declared
sector size): exactly `bytes` consecutive destination bytes are written,
and byte `o` is byte `o` of the file stream along the cluster chain. -/
theorem clusterLoop_writes (disk : Nat → Option (Nat → Nat)) (g : FatGeom)
    (fat : Nat → Nat) (hss : g.sector_size = 512) :
    ∀ i c addr bytes, (clusterLoop disk g fat i c addr bytes).ok = true →
      bytes ≤ 512 * g.sectors_per_cluster * i →
      (clusterLoop disk g fat i c addr bytes).writes =
        (List.range bytes).map fun o => (addr + o, fileByte disk g fat c o) := by
  intro i
  induction i with
  | zero =>
    intro c addr bytes _ hcap
    rw [Nat.mul_zero] at hcap
    have hb0 : bytes = 0 := Nat.le_zero.mp hcap
    subst hb0
    rfl
  | succ i ih =>
    intro c addr bytes hok hcap
    simp only [clusterLoop] at hok ⊢
    cases hst : (sectorLoop disk g.sector_size (clusterSectorStartC g c) 0
        g.sectors_per_cluster addr bytes).st with
    | none =>
      simp only [hst] at hok
      simp at hok
    | some ab =>
      simp only [hst] at hok ⊢
      have hst2 : (sectorLoop disk 512 (clusterSectorStartC g c) 0
          g.sectors_per_cluster addr bytes).st = some ab := by
        rw [← hss]; exact hst
      obtain ⟨hw, hb2, ha1⟩ := sectorLoop_spec disk (clusterSectorStartC g c)
        g.sectors_per_cluster 0 addr bytes ab hst2
      have hcap2 : bytes ≤ 512 * g.sectors_per_cluster * i
          + 512 * g.sectors_per_cluster := by
        have hms : 512 * g.sectors_per_cluster * (i + 1)
            = 512 * g.sectors_per_cluster * i + 512 * g.sectors_per_cluster :=
          Nat.mul_succ _ _
        rw [hms] at hcap
        exact hcap
      rw [hss]
      by_cases hbig : 512 * g.sectors_per_cluster < bytes
      · have hspc : 1 ≤ g.sectors_per_cluster := by
          by_contra hs
          have hs0 : g.sectors_per_cluster = 0 := by omega
          rw [hs0] at hbig hcap2
          simp at hbig hcap2
          omega
        have hmin : min bytes (512 * g.sectors_per_cluster)
            = 512 * g.sectors_per_cluster := Nat.min_eq_right (le_of_lt hbig)
        have hab1 : ab.1 = addr + 512 * g.sectors_per_cluster := ha1 hbig
        have habcap : ab.2 ≤ 512 * g.sectors_per_cluster * i := by
          rw [hb2]
          exact Nat.sub_le_iff_le_add.mpr hcap2
        have hrest := ih (fat c) ab.1 ab.2 hok habcap
        rw [hw, hrest, hab1, hb2, hmin]
        have hsplit : bytes = 512 * g.sectors_per_cluster
            + (bytes - 512 * g.sectors_per_cluster) :=
          (Nat.add_sub_cancel' (le_of_lt hbig)).symm
        conv_rhs => rw [hsplit]
        rw [List.range_add, List.map_append, List.map_map]
        refine congrArg₂ _ ?_ ?_
        · refine List.map_congr_left fun o ho => ?_
          rw [List.mem_range] at ho
          exact congrArg₂ _ rfl (fileByte_head disk g fat hss c o ho).symm
        · refine List.map_congr_left fun o _ => ?_
          simp only [Function.comp_apply]
          rw [fileByte_shift disk g fat hss hspc]
          refine congrArg₂ _ ?_ rfl
          omega
      · have hble : bytes ≤ 512 * g.sectors_per_cluster := not_lt.mp hbig
        have hmin : min bytes (512 * g.sectors_per_cluster) = bytes :=
          Nat.min_eq_left hble
        have hzero : ab.2 = 0 := by
          rw [hb2]
          exact Nat.sub_eq_zero_of_le hble
        rw [hzero] at hok
        have hrest := ih (fat c) ab.1 0 hok (Nat.zero_le _)
        rw [hw, hzero, hrest, hmin]
        simp only [List.range_zero, List.map_nil, List.append_nil]
        refine List.map_congr_left fun o ho => ?_
        rw [List.mem_range] at ho
        exact congrArg₂ _ rfl (fileByte_head disk g fat hss c o (by omega)).symm

/-- The precomputed cluster count always covers the file: `L` bytes fit
in `1 + L / spc / 512` clusters of `spc` sectors of 512 bytes. -/
theorem file_capacity (L spc : Nat) (h : 1 ≤ spc) :
    L ≤ 512 * spc * (1 + L / spc / 512) := by
  rw [Nat.div_div_eq_div_mul]
  have hm : 0 < spc * 512 := by positivity
  calc L = spc * 512 * (L / (spc * 512)) + L % (spc * 512) :=
        (Nat.div_add_mod L (spc * 512)).symm
    _ ≤ spc * 512 * (L / (spc * 512)) + spc * 512 :=
        Nat.add_le_add_left (Nat.le_of_lt (Nat.mod_lt L hm)) _
    _ = 512 * spc * (1 + L / (spc * 512)) := by ring

/-- Claim C1 (amended): when the boot sector's declared sector size is
512 (the block size `readSector` always transfers), a successful
`spi_sdcard_readFile` on a found entry of nonzero size writes to the
destination exactly the bytes `(addr + o, fileByte o)` for
`o < fileSize`, in order: the first `fileSize` bytes of the file along
its cluster chain, full sectors stored directly at the advancing address
and the final partial sector copied from the scratch buffer with exactly
`fileSize mod 512` bytes (a full sector when that remainder is zero); in
particular no byte at or beyond `addr + fileSize` is written.  (With a
declared sector size other than 512 the direct path still stores 512-byte
blocks and can overrun, see the counterexample.) -/
theorem c1_readFile_bytes_amended (disk : Nat → Option (Nat → Nat)) (g : FatGeom)
    (fat : Nat → Nat) (dir : List Fat16Entry) (fn ex : List Nat)
    (addr fuel : Nat) (e : Fat16Entry) (out : ReadFileOut)
    (hss : g.sector_size = 512) (hspc : 1 ≤ g.sectors_per_cluster)
    (hscan : scanAux dir fn ex 0 fuel = some (some e))
    (hnz : e.file_size ≠ 0)
    (hrun : spi_sdcard_readFile disk g fat dir fn ex addr fuel = some out)
    (hok : out.ok = true) :
    out.writes = (List.range e.file_size).map
      fun o => (addr + o, fileByte disk g fat e.starting_cluster o) := by
  unfold spi_sdcard_readFile at hrun
  rw [hscan] at hrun
  simp only [if_neg hnz, Option.some.injEq] at hrun
  subst hrun
  dsimp only at hok ⊢
  rw [hss] at hok ⊢
  exact clusterLoop_writes disk g fat hss
    (1 + e.file_size / g.sectors_per_cluster / 512) e.starting_cluster addr
    e.file_size hok (file_capacity e.file_size g.sectors_per_cluster hspc)

set_option maxRecDepth 100000 in
/-- Witness for claim C1 on the concrete witness fixture (40-byte file in
one cluster). -/
theorem c1_readFile_bytes_amended_w :
    (gW.sector_size = 512 ∧ 1 ≤ gW.sectors_per_cluster ∧
     scanAux dirW [72] [] 0 1 = some (some eW) ∧ eW.file_size ≠ 0 ∧
     spi_sdcard_readFile diskW gW fatW dirW [72] [] 0 1 = some outW ∧
     outW.ok = true) ∧
    outW.writes = (List.range eW.file_size).map
      fun o => (0 + o, fileByte diskW gW fatW eW.starting_cluster o) :=
  ⟨⟨by decide, by decide, by decide, by decide, by decide, by decide⟩,
   c1_readFile_bytes_amended diskW gW fatW dirW [72] [] 0 1 eW outW
     (by decide) (by decide) (by decide) (by decide) (by decide) (by decide)⟩

set_option maxRecDepth 100000 in
/-- Counterexample to claim C1 as stated: the boot sector declares a
256-byte sector size, the matched file is 300 bytes, the call completes
successfully — yet a byte is written at destination offset 511, at and
beyond destination + fileSize = 300, because `readSector` always stores a
512-byte block in the direct path.  The run writes 556 bytes in total,
not 300. -/
theorem c1_cex :
    (spi_sdcard_readFile diskC1 gC1 fatC1 dirC1 [72] [] 0 1).map
      (fun out => out.ok && out.writes.contains (511, 7)
        && decide (out.writes.length = 556)) = some true := by decide

/-- Claim C2: a successful `spi_sdcard_readFile` on a found entry of
nonzero size visits exactly `1 + fileSize / sectorsPerCluster /
sectorSize` clusters (both divisions truncating, as the C expression
computes); the visited clusters follow the allocation table from the
entry's starting cluster with no end-of-chain check (cluster `i` is
`fat` applied `i` times), and each visited cluster's first sector is the
wrap-around value of `rootDirSectorStart + (cluster - 1) *
sectorsPerCluster`, which equals that plain expression whenever the
cluster number is at least 1 and the expression fits in 32 bits. -/
theorem c2_cluster_walk (disk : Nat → Option (Nat → Nat)) (g : FatGeom)
    (fat : Nat → Nat) (dir : List Fat16Entry) (fn ex : List Nat)
    (addr fuel : Nat) (e : Fat16Entry) (out : ReadFileOut)
    (hscan : scanAux dir fn ex 0 fuel = some (some e))
    (hnz : e.file_size ≠ 0)
    (hrun : spi_sdcard_readFile disk g fat dir fn ex addr fuel = some out)
    (hok : out.ok = true) :
    out.clusters =
      (List.range (1 + e.file_size / g.sectors_per_cluster / g.sector_size)).map
        (fun i => (chainCluster fat e.starting_cluster i,
          clusterSectorStartC g (chainCluster fat e.starting_cluster i))) ∧
    ∀ c, 1 ≤ c → g.rootDirSectorStart + (c - 1) * g.sectors_per_cluster < 2 ^ 32 →
      clusterSectorStartC g c
        = g.rootDirSectorStart + (c - 1) * g.sectors_per_cluster := by
  constructor
  · unfold spi_sdcard_readFile at hrun
    rw [hscan] at hrun
    simp only [if_neg hnz, Option.some.injEq] at hrun
    subst hrun
    dsimp only at hok ⊢
    exact clusterLoop_clusters disk g fat
      (1 + e.file_size / g.sectors_per_cluster / g.sector_size)
      e.starting_cluster addr e.file_size hok
  · intro c hc hlt
    unfold clusterSectorStartC
    have h1 : c + 2 ^ 32 - 1 = (c - 1) + 2 ^ 32 := by omega
    rw [h1, Nat.add_mul, ← Nat.add_assoc, Nat.add_mul_mod_self_left]
    exact Nat.mod_eq_of_lt hlt

/-- Witness for claim C2 on the concrete witness fixture. -/
theorem c2_cluster_walk_w :
    (scanAux dirW [72] [] 0 1 = some (some eW) ∧ eW.file_size ≠ 0 ∧
     spi_sdcard_readFile diskW gW fatW dirW [72] [] 0 1 = some outW ∧
     outW.ok = true) ∧
    (outW.clusters =
      (List.range (1 + eW.file_size / gW.sectors_per_cluster / gW.sector_size)).map
        (fun i => (chainCluster fatW eW.starting_cluster i,
          clusterSectorStartC gW (chainCluster fatW eW.starting_cluster i))) ∧
     ∀ c, 1 ≤ c →
       gW.rootDirSectorStart + (c - 1) * gW.sectors_per_cluster < 2 ^ 32 →
       clusterSectorStartC gW c
         = gW.rootDirSectorStart + (c - 1) * gW.sectors_per_cluster) :=
  ⟨⟨by decide, by decide, by decide, by decide⟩,
   c2_cluster_walk diskW gW fatW dirW [72] [] 0 1 eW outW
     (by decide) (by decide) (by decide) (by decide)⟩
